import Mathlib

/-!
# Verification of `homeassistant/helpers/restore_state.py`

A shallow embedding of the restore-state helper: the lazily initialized,
lock-guarded restore cache read by `async_get_last_state`, and the dump
scheduler installed by `async_setup`.

The module runs on a single-threaded cooperative event loop, so we model it
as a small-step transition system: every maximal run of synchronous code
between two `await` points is one atomic step, and a schedule (a list of
actions) picks the interleaving of concurrently suspended tasks, event
firings and timer ticks.  The suspension points in the source are
`asyncio.Lock.acquire` (line 101), `store.async_load()` (line 67) and
`store.async_save(...)` (line 132).

Two machines are used:

* `Sys` / `step` — the restore/read path: `async_get_last_state`
  (lines 87-108) and `_load_restore_cache` (lines 56-75), with the
  `asyncio.Lock` stored under `_LOCK`, the cache dict stored under
  `DATA_RESTORE_CACHE`, and the once-only `remove_cache` listener for
  `EVENT_HOMEASSISTANT_START` (lines 58-63).
* `DumpSys` / `stepD` — the dump scheduler: `async_setup` (lines 28-53)
  and `async_dump_states` (lines 126-135).

The `SnapshotStore` (`homeassistant.helpers.storage.Store`) and the host
core are external collaborators; their visible behaviour (load outcomes,
event firing, phase changes, timer ticks) is supplied by the schedule.
-/

namespace RestoreState

/-- `homeassistant.core.CoreState` values consumed by this module:
the gate at line 93 checks membership in `(CoreState.starting,
CoreState.not_running)`. -/
inductive CoreState
  | not_running
  | starting
  | running
  | stopping
deriving DecidableEq, Repr

/-- One stored record: a `homeassistant.core.State`, keyed by its
`entity_id`; the rest of the payload is opaque to this module and is
modelled as one string field. -/
structure HAState where
  entity_id : String
  state : String
deriving DecidableEq, Repr

/-- The cache dict under `DATA_RESTORE_CACHE`: a Python dict modelled as an
insertion-ordered association list. -/
abbrev RestoreDict := List (String × HAState)

/-- Python dict assignment `d[k] = v`: replace in place if the key is
present, else append. -/
def dictInsert : RestoreDict → String → HAState → RestoreDict
  | [], k, v => [(k, v)]
  | (k₁, v₁) :: rest, k, v =>
      if k₁ = k then (k, v) :: rest else (k₁, v₁) :: dictInsert rest k v

/-- Python `d.get(k)`: the value at the first (unique) matching key, else
`None`. -/
def dictGet : RestoreDict → String → Option HAState
  | [], _ => none
  | (k₁, v) :: rest, k => if k₁ = k then some v else dictGet rest k

/-- The dict comprehension at lines 73-74:
`{state['entity_id']: State.from_dict(state) for state in states}`,
evaluated left to right. -/
def restoreCacheOfStates (states : List HAState) : RestoreDict :=
  states.foldl (fun d st => dictInsert d st.entity_id st) []

/-- `STATE_DUMP_INTERVAL = timedelta(hours=1)` (line 25), in minutes. -/
def STATE_DUMP_INTERVAL : Nat := 60

/-- Exception kinds distinguished by the module: `HomeAssistantError`
(caught at line 105, line 134) versus any other exception (not caught). -/
inductive ExcKind
  | haError
  | otherError
deriving DecidableEq, Repr

/-- Outcome of one `store.async_load()` call (line 67): `None`, a list of
state dicts, or a raised exception. -/
inductive LoadOutcome
  | noData
  | snapshot (states : List HAState)
  | fail (kind : ExcKind)
deriving DecidableEq, Repr

/-- What a completed `async_get_last_state` call delivers to its caller:
a returned value (possibly `None`) or a propagated exception. -/
inductive CallResult
  | ok (v : Option HAState)
  | raised (k : ExcKind)
deriving DecidableEq, Repr

/-- Progress of one `async_get_last_state(hass, eid)` task through its
suspension points. -/
inductive TaskStatus
  | ready
  | waitingLock
  | loading
  | done (r : CallResult)
deriving DecidableEq, Repr

/-- One `async_get_last_state` task: the entity id it was called with and
where it currently is. -/
structure Task where
  eid : String
  status : TaskStatus
deriving DecidableEq, Repr

/-- `l[i]?` on the task list, by explicit recursion. -/
def taskAt : List Task → Nat → Option Task
  | [], _ => none
  | t :: _, 0 => some t
  | _ :: ts, n + 1 => taskAt ts n

/-- Replace the status of the i-th task, leaving everything else alone. -/
def setTask : List Task → Nat → TaskStatus → List Task
  | [], _, _ => []
  | t :: ts, 0, st => { t with status := st } :: ts
  | t :: ts, n + 1, st => t :: setTask ts n st

/-- The restore-path system state: the host phase, the contents of
`hass.data` relevant to this module (`DATA_RESTORE_CACHE` as `cache`, the
`_LOCK` as `lockHeld`), the number of registered once-only `remove_cache`
listeners for `EVENT_HOMEASSISTANT_START`, the suspended tasks, and an
instrumentation counter of `store.async_load()` invocations. -/
structure Sys where
  phase : CoreState
  cache : Option RestoreDict
  lockHeld : Bool
  removeListeners : Nat
  tasks : List Task
  loadCount : Nat
deriving DecidableEq, Repr

/-- The gate at line 93: the read window is open while
`hass.state in (CoreState.starting, CoreState.not_running)`. -/
def phaseOpen : CoreState → Bool
  | .starting => true
  | .not_running => true
  | _ => false

/-- Actions a schedule can take on the restore path:
start a created task, let a lock waiter acquire the freed lock, deliver a
`store.async_load()` outcome to the task suspended in it, fire
`EVENT_HOMEASSISTANT_START`, or let the host change phase. -/
inductive Act
  | start (i : Nat)
  | acquire (i : Nat)
  | resume (i : Nat) (o : LoadOutcome)
  | fireStart
  | setPhase (p : CoreState)
deriving DecidableEq, Repr

/-- Entering `_load_restore_cache` (lines 56-67) with the lock taken:
register the once-only `remove_cache` listener (line 63), then suspend in
`store.async_load()` (line 67).  The load counter records the invocation. -/
def beginLoad (s : Sys) (i : Nat) : Sys :=
  { s with
    lockHeld := true
    removeListeners := s.removeListeners + 1
    loadCount := s.loadCount + 1
    tasks := setTask s.tasks i .loading }

/-- One atomic step of the restore path.

* `start i` runs task `i` from its call site (line 90) to its first
  suspension or return: cache hit (lines 90-91), window-closed return
  (lines 93-96), blocking on a held lock (line 101), or initiating the
  load (lines 101-104 into line 67).
* `acquire i` resumes a task blocked at line 101 once the lock is free:
  it re-checks the cache under the lock (line 103) and either skips the
  load and returns (line 108) or initiates the load.
* `resume i o` delivers the `store.async_load()` outcome: `None` → empty
  cache (lines 68-71); a snapshot → the indexed dict (lines 73-74); a
  `HomeAssistantError` → caught, `return None` (lines 105-106), cache
  untouched; any other exception → propagates to the caller (the
  `async with` still releases the lock).
* `fireStart` fires `EVENT_HOMEASSISTANT_START`: every registered
  once-only `remove_cache` listener pops `DATA_RESTORE_CACHE`
  (lines 58-63) and is consumed.
* `setPhase p` is the host moving `hass.state`.

Actions that do not apply in the current state are no-ops. -/
def step (s : Sys) (a : Act) : Sys :=
  match a with
  | .start i =>
      match taskAt s.tasks i with
      | none => s
      | some t =>
          match t.status with
          | .ready =>
              match s.cache with
              | some d =>
                  { s with tasks := setTask s.tasks i (.done (.ok (dictGet d t.eid))) }
              | none =>
                  if phaseOpen s.phase then
                    if s.lockHeld then
                      { s with tasks := setTask s.tasks i .waitingLock }
                    else
                      beginLoad s i
                  else
                    { s with tasks := setTask s.tasks i (.done (.ok none)) }
          | _ => s
  | .acquire i =>
      match taskAt s.tasks i with
      | none => s
      | some t =>
          match t.status with
          | .waitingLock =>
              if s.lockHeld then s
              else
                match s.cache with
                | some d =>
                    { s with tasks := setTask s.tasks i (.done (.ok (dictGet d t.eid))) }
                | none => beginLoad s i
          | _ => s
  | .resume i o =>
      match taskAt s.tasks i with
      | none => s
      | some t =>
          match t.status with
          | .loading =>
              match o with
              | .noData =>
                  { s with
                    cache := some []
                    lockHeld := false
                    tasks := setTask s.tasks i (.done (.ok (dictGet [] t.eid))) }
              | .snapshot l =>
                  { s with
                    cache := some (restoreCacheOfStates l)
                    lockHeld := false
                    tasks := setTask s.tasks i
                      (.done (.ok (dictGet (restoreCacheOfStates l) t.eid))) }
              | .fail .haError =>
                  { s with
                    lockHeld := false
                    tasks := setTask s.tasks i (.done (.ok none)) }
              | .fail .otherError =>
                  { s with
                    lockHeld := false
                    tasks := setTask s.tasks i (.done (.raised .otherError)) }
          | _ => s
  | .fireStart =>
      if 0 < s.removeListeners then
        { s with cache := none, removeListeners := 0 }
      else s
  | .setPhase p => { s with phase := p }

/-- Run a schedule from a state. -/
def run (s : Sys) : List Act → Sys
  | [] => s
  | a :: tr => run (step s a) tr

/-- Initial state: `hass.data` holds no cache and no lock, no listeners are
registered, no load has run, and one created-but-not-yet-run
`async_get_last_state` task exists per requested entity id. -/
def mkInit (eids : List String) (p : CoreState) : Sys :=
  { phase := p
    cache := none
    lockHeld := false
    removeListeners := 0
    tasks := eids.map (fun e => { eid := e, status := .ready })
    loadCount := 0 }

/-- The status of task `i`. -/
def statusOf (s : Sys) (i : Nat) : Option TaskStatus :=
  (taskAt s.tasks i).map Task.status

/-- Schedules whose load outcomes never raise and in which
`EVENT_HOMEASSISTANT_START` never fires. -/
def okAct : Act → Bool
  | .resume _ (.fail _) => false
  | .fireStart => false
  | _ => true

/-- Schedules in which `EVENT_HOMEASSISTANT_START` never fires. -/
def noFire : Act → Bool
  | .fireStart => false
  | _ => true

/-- The dump-scheduler system state: whether the host has reached
`running`, the once-only listener registrations on the start and stop
events, the registered periodic interval, the created-but-not-started
`async_dump_states` tasks, the saves currently suspended in
`store.async_save(...)`, and a counter of save invocations. -/
structure DumpSys where
  running : Bool
  startListeners : Nat
  interval : Option Nat
  stopListeners : Nat
  pendingDumps : Nat
  dumpsInFlight : Nat
  saveCount : Nat
deriving DecidableEq, Repr

/-- Actions on the dump scheduler: the start event (host reaches
`running`), a periodic timer tick, the stop event, the event loop starting
a created dump task (it runs to its `store.async_save` suspension,
lines 129-132), and a save completing (normally or with a swallowed
`HomeAssistantError`, lines 134-135). -/
inductive DAct
  | fireStart
  | tick
  | fireStop
  | startDump
  | finishDump
deriving DecidableEq, Repr

/-- One atomic step of the dump scheduler.

`fireStart` consumes the once-only `EVENT_HOMEASSISTANT_START` listener
registered by `async_setup` (lines 52-53) and runs
`async_setup_restore_state` (lines 36-50): create one immediate dump task
(line 42), register the periodic interval (lines 45-46), and register one
once-only `EVENT_HOMEASSISTANT_STOP` listener (lines 49-50).  Modelled
from the spec: the host delivers this event exactly when its lifecycle
reaches "running", so the step also sets `running`.

`tick` is `async_track_time_interval` firing: it runs
`async_add_dump_states_job` (lines 31-34), which unconditionally creates a
new `async_dump_states` task.  `fireStop` consumes the stop listener and
does the same.  `startDump` lets the event loop run a created dump task
into its `store.async_save` suspension; `finishDump` completes one save.
Actions that do not apply are no-ops. -/
def stepD (s : DumpSys) (a : DAct) : DumpSys :=
  match a with
  | .fireStart =>
      if 0 < s.startListeners then
        { s with
          running := true
          startListeners := 0
          pendingDumps := s.pendingDumps + 1
          interval := some STATE_DUMP_INTERVAL
          stopListeners := s.stopListeners + 1 }
      else { s with running := true }
  | .tick =>
      if s.interval.isSome then { s with pendingDumps := s.pendingDumps + 1 } else s
  | .fireStop =>
      if 0 < s.stopListeners then
        { s with stopListeners := 0, pendingDumps := s.pendingDumps + 1 }
      else s
  | .startDump =>
      if 0 < s.pendingDumps then
        { s with
          pendingDumps := s.pendingDumps - 1
          dumpsInFlight := s.dumpsInFlight + 1
          saveCount := s.saveCount + 1 }
      else s
  | .finishDump =>
      if 0 < s.dumpsInFlight then { s with dumpsInFlight := s.dumpsInFlight - 1 } else s

/-- Run a schedule of dump-scheduler actions. -/
def runD (s : DumpSys) : List DAct → DumpSys
  | [] => s
  | a :: tr => runD (stepD s a) tr

/-- The state right after `async_setup(hass)` (lines 28-53) returns: the
only effect so far is the once-only `EVENT_HOMEASSISTANT_START` listener
registration at lines 52-53. -/
def dumpInit : DumpSys :=
  { running := false
    startListeners := 1
    interval := none
    stopListeners := 0
    pendingDumps := 0
    dumpsInFlight := 0
    saveCount := 0 }

/-- Task `i` is currently suspended inside `store.async_load()`. -/
def loadingAt (ts : List Task) (i : Nat) : Prop :=
  (taskAt ts i).map Task.status = some .loading

/-- Mutual exclusion of loads: with the `_LOCK` free no task is inside
`store.async_load()`, and at most one task is ever inside it. -/
def mutexInvT (lock : Bool) (ts : List Task) : Prop :=
  (lock = false → ∀ i, ¬ loadingAt ts i) ∧
  (∀ i j, loadingAt ts i → loadingAt ts j → i = j)

/-- `mutexInvT` read off a system state. -/
def mutexInv (s : Sys) : Prop :=
  mutexInvT s.lockHeld s.tasks

/-- The at-most-one-load invariant used for the single-flight property: the
load counter never exceeds one, and while the cache is absent and the lock
free no load has happened yet. -/
def loadOnceInv (s : Sys) : Prop :=
  s.loadCount ≤ 1 ∧ (s.cache = none → s.lockHeld = false → s.loadCount = 0)

/-- While no `remove_cache` listener is registered, the cache has never
been populated and no load is in flight (so the listener registered at
line 63 is always armed while the cache exists). -/
def listenInv (s : Sys) : Prop :=
  s.removeListeners = 0 → s.cache = none ∧ ∀ i, ¬ loadingAt s.tasks i

/-! ## Helper lemmas -/

/-- Reading back a task list after a positional status update. -/
theorem taskAt_setTask (ts : List Task) (i j : Nat) (st : TaskStatus) :
    taskAt (setTask ts i st) j =
      if i = j then (taskAt ts j).map (fun t => { t with status := st })
      else taskAt ts j := by
  induction ts generalizing i j with
  | nil => cases i <;> cases j <;> simp [setTask, taskAt]
  | cons t ts ih =>
    cases i with
    | zero => cases j <;> simp [setTask, taskAt]
    | succ n =>
      cases j with
      | zero => simp [setTask, taskAt]
      | succ m => simp [setTask, taskAt, ih n m]

/-- Inserting a key and then reading it back gives the inserted value. -/
theorem dictGet_dictInsert_self (d : RestoreDict) (k : String) (v : HAState) :
    dictGet (dictInsert d k v) k = some v := by
  induction d with
  | nil => simp [dictInsert, dictGet]
  | cons p rest ih =>
    obtain ⟨k₁, v₁⟩ := p
    by_cases h : k₁ = k
    · simp [dictInsert, dictGet, h]
    · simp [dictInsert, dictGet, h, ih]

/-- Inserting one key does not change the value read at another key. -/
theorem dictGet_dictInsert_ne (d : RestoreDict) (k k₁ : String) (v : HAState)
    (h : k ≠ k₁) :
    dictGet (dictInsert d k v) k₁ = dictGet d k₁ := by
  induction d with
  | nil => simp [dictInsert, dictGet, h]
  | cons p rest ih =>
    obtain ⟨k₂, v₂⟩ := p
    by_cases h₂ : k₂ = k
    · subst h₂
      simp [dictInsert, dictGet, h]
    · simp [dictInsert, dictGet, h₂, ih]

/-- Folding records none of which carry key `k` over a dict leaves the
value at `k` unchanged. -/
theorem dictGet_foldl_not_mem (l : List HAState) (d : RestoreDict) (k : String)
    (h : ∀ st ∈ l, st.entity_id ≠ k) :
    dictGet (l.foldl (fun d st => dictInsert d st.entity_id st) d) k = dictGet d k := by
  induction l generalizing d with
  | nil => rfl
  | cons st rest ih =>
    simp only [List.foldl_cons]
    rw [ih _ (fun x hx => h x (List.mem_cons_of_mem _ hx)),
      dictGet_dictInsert_ne _ _ _ _ (h st (List.mem_cons_self _ _))]

/-- The dict built by the comprehension at lines 73-74 maps a key to the
last record in the sequence carrying that key. -/
theorem restoreCacheOfStates_last_wins (pre post : List HAState) (r : HAState)
    (hpost : ∀ st ∈ post, st.entity_id ≠ r.entity_id) :
    dictGet (restoreCacheOfStates (pre ++ r :: post)) r.entity_id = some r := by
  unfold restoreCacheOfStates
  rw [List.foldl_append, List.foldl_cons, dictGet_foldl_not_mem _ _ _ hpost,
    dictGet_dictInsert_self]

/-- Any dump-scheduler action other than the start event leaves the
post-`async_setup` state untouched: nothing is scheduled before the host
starts. -/
theorem stepD_dumpInit (a : DAct) (h : a ≠ DAct.fireStart) :
    stepD dumpInit a = dumpInit := by
  cases a with
  | fireStart => exact absurd rfl h
  | tick => rfl
  | fireStop => rfl
  | startDump => rfl
  | finishDump => rfl

/-- Iterated version of `stepD_dumpInit`. -/
theorem runD_dumpInit (tr : List DAct) (h : ∀ a ∈ tr, a ≠ DAct.fireStart) :
    runD dumpInit tr = dumpInit := by
  induction tr with
  | nil => rfl
  | cons a tr ih =>
    have ha : stepD dumpInit a = dumpInit := stepD_dumpInit a (h a (List.mem_cons_self _ _))
    calc runD dumpInit (a :: tr) = runD (stepD dumpInit a) tr := rfl
      _ = runD dumpInit tr := by rw [ha]
      _ = dumpInit := ih (fun b hb => h b (List.mem_cons_of_mem _ hb))

/-- A step-preserved predicate holds after any schedule of allowed
actions. -/
theorem run_preserves (P : Sys → Prop) (g : Act → Bool)
    (hstep : ∀ s a, g a = true → P s → P (step s a)) :
    ∀ (tr : List Act) (s : Sys), (∀ a ∈ tr, g a = true) → P s → P (run s tr) := by
  intro tr
  induction tr with
  | nil => intro s _ hs; exact hs
  | cons a tr ih =>
    intro s hg hs
    exact ih (step s a) (fun b hb => hg b (List.mem_cons_of_mem _ hb))
      (hstep s a (hg a (List.mem_cons_self _ _)) hs)

/-- Updating a task at another index does not affect who is loading. -/
theorem loadingAt_setTask_ne (ts : List Task) (i j : Nat) (st : TaskStatus)
    (h : ¬ i = j) : loadingAt (setTask ts i st) j ↔ loadingAt ts j := by
  unfold loadingAt
  rw [taskAt_setTask, if_neg h]

/-- Setting a task to a non-loading status makes it non-loading. -/
theorem not_loadingAt_setTask_self (ts : List Task) (i : Nat) (st : TaskStatus)
    (h : st ≠ .loading) : ¬ loadingAt (setTask ts i st) i := by
  unfold loadingAt
  rw [taskAt_setTask, if_pos rfl]
  cases taskAt ts i with
  | none => simp
  | some t => simp [h]

/-- Setting an existing task to loading makes it loading. -/
theorem loadingAt_setTask_self (ts : List Task) (i : Nat) (t : Task)
    (ht : taskAt ts i = some t) : loadingAt (setTask ts i .loading) i := by
  unfold loadingAt
  rw [taskAt_setTask, if_pos rfl, ht]
  rfl

/-- If no task is loading, a non-loading update keeps it that way. -/
theorem no_loading_setTask (ts : List Task) (i : Nat) (st : TaskStatus)
    (hst : st ≠ .loading) (h : ∀ j, ¬ loadingAt ts j) :
    ∀ j, ¬ loadingAt (setTask ts i st) j := by
  intro j hj
  by_cases hij : i = j
  · exact not_loadingAt_setTask_self ts i st hst (hij ▸ hj)
  · exact h j ((loadingAt_setTask_ne ts i j st hij).mp hj)

/-- A non-loading status update preserves the load mutual exclusion. -/
theorem mutexInvT_set_nonloading {b : Bool} {ts : List Task} (i : Nat)
    (st : TaskStatus) (hst : st ≠ .loading) (h : mutexInvT b ts) :
    mutexInvT b (setTask ts i st) := by
  obtain ⟨h1, h2⟩ := h
  constructor
  · intro hb j
    by_cases hij : i = j
    · exact fun hj => not_loadingAt_setTask_self ts i st hst (hij ▸ hj)
    · rw [loadingAt_setTask_ne ts i j st hij]
      exact h1 hb j
  · intro a c ha hc
    by_cases hia : i = a
    · exact absurd (hia ▸ ha) (not_loadingAt_setTask_self ts i st hst)
    · by_cases hic : i = c
      · exact absurd (hic ▸ hc) (not_loadingAt_setTask_self ts i st hst)
      · exact h2 a c ((loadingAt_setTask_ne ts i a st hia).mp ha)
          ((loadingAt_setTask_ne ts i c st hic).mp hc)

/-- Starting a load from a state where the lock is free (so nobody is
loading) yields a state where only the starter is loading. -/
theorem mutexInvT_beginLoad {ts : List Task} (i : Nat)
    (h : mutexInvT false ts) : mutexInvT true (setTask ts i .loading) := by
  obtain ⟨h1, _⟩ := h
  constructor
  · intro hb
    exact absurd hb (by decide)
  · intro a c ha hc
    by_cases hia : i = a
    · by_cases hic : i = c
      · exact hia ▸ hic ▸ rfl
      · exact absurd ((loadingAt_setTask_ne ts i c _ hic).mp hc) (h1 rfl c)
    · exact absurd ((loadingAt_setTask_ne ts i a _ hia).mp ha) (h1 rfl a)

/-- Completing the unique in-flight load and releasing the lock leaves no
task loading. -/
theorem mutexInvT_endLoad {b : Bool} {ts : List Task} (i : Nat) (t : Task)
    (ht : taskAt ts i = some t) (hl : t.status = .loading)
    (st : TaskStatus) (hst : st ≠ .loading) (h : mutexInvT b ts) :
    mutexInvT false (setTask ts i st) := by
  obtain ⟨_, h2⟩ := h
  have hload : loadingAt ts i := by simp [loadingAt, ht, hl]
  have hnone : ∀ j, ¬ loadingAt (setTask ts i st) j := by
    intro j hj
    by_cases hij : i = j
    · exact not_loadingAt_setTask_self ts i st hst (hij ▸ hj)
    · exact hij (h2 i j hload ((loadingAt_setTask_ne ts i j st hij).mp hj))
  exact ⟨fun _ => hnone, fun a c ha _ => absurd ha (hnone a)⟩

/-! ## Step equations

One rewriting lemma per branch of `step`, so later proofs never fight the
nested matches. -/

theorem step_start_none (s : Sys) (i : Nat) (ht : taskAt s.tasks i = none) :
    step s (.start i) = s := by
  simp only [step, ht]

theorem step_start_hit (s : Sys) (i : Nat) (t : Task) (d : RestoreDict)
    (ht : taskAt s.tasks i = some t) (hts : t.status = .ready)
    (hc : s.cache = some d) :
    step s (.start i) =
      { s with tasks := setTask s.tasks i (.done (.ok (dictGet d t.eid))) } := by
  simp only [step, ht, hts, hc]

theorem step_start_closed (s : Sys) (i : Nat) (t : Task)
    (ht : taskAt s.tasks i = some t) (hts : t.status = .ready)
    (hc : s.cache = none) (hp : phaseOpen s.phase = false) :
    step s (.start i) =
      { s with tasks := setTask s.tasks i (.done (.ok none)) } := by
  simp [step, ht, hts, hc, hp]

theorem step_start_wait (s : Sys) (i : Nat) (t : Task)
    (ht : taskAt s.tasks i = some t) (hts : t.status = .ready)
    (hc : s.cache = none) (hp : phaseOpen s.phase = true)
    (hl : s.lockHeld = true) :
    step s (.start i) = { s with tasks := setTask s.tasks i .waitingLock } := by
  simp [step, ht, hts, hc, hp, hl]

theorem step_start_load (s : Sys) (i : Nat) (t : Task)
    (ht : taskAt s.tasks i = some t) (hts : t.status = .ready)
    (hc : s.cache = none) (hp : phaseOpen s.phase = true)
    (hl : s.lockHeld = false) :
    step s (.start i) = beginLoad s i := by
  simp [step, ht, hts, hc, hp, hl]

theorem step_start_notReady (s : Sys) (i : Nat) (t : Task)
    (ht : taskAt s.tasks i = some t) (hts : t.status ≠ .ready) :
    step s (.start i) = s := by
  simp only [step, ht]

theorem step_acquire_none (s : Sys) (i : Nat) (ht : taskAt s.tasks i = none) :
    step s (.acquire i) = s := by
  simp only [step, ht]

theorem step_acquire_locked (s : Sys) (i : Nat) (t : Task)
    (ht : taskAt s.tasks i = some t) (hts : t.status = .waitingLock)
    (hl : s.lockHeld = true) :
    step s (.acquire i) = s := by
  simp [step, ht, hts, hl]

theorem step_acquire_hit (s : Sys) (i : Nat) (t : Task) (d : RestoreDict)
    (ht : taskAt s.tasks i = some t) (hts : t.status = .waitingLock)
    (hl : s.lockHeld = false) (hc : s.cache = some d) :
    step s (.acquire i) =
      { s with tasks := setTask s.tasks i (.done (.ok (dictGet d t.eid))) } := by
  simp [step, ht, hts, hl, hc]

theorem step_acquire_load (s : Sys) (i : Nat) (t : Task)
    (ht : taskAt s.tasks i = some t) (hts : t.status = .waitingLock)
    (hl : s.lockHeld = false) (hc : s.cache = none) :
    step s (.acquire i) = beginLoad s i := by
  simp [step, ht, hts, hl, hc]

theorem step_acquire_notWaiting (s : Sys) (i : Nat) (t : Task)
    (ht : taskAt s.tasks i = some t) (hts : t.status ≠ .waitingLock) :
    step s (.acquire i) = s := by
  simp only [step, ht]

theorem step_resume_none (s : Sys) (i : Nat) (o : LoadOutcome)
    (ht : taskAt s.tasks i = none) : step s (.resume i o) = s := by
  simp only [step, ht]

theorem step_resume_noData (s : Sys) (i : Nat) (t : Task)
    (ht : taskAt s.tasks i = some t) (hts : t.status = .loading) :
    step s (.resume i .noData) =
      { s with
        cache := some []
        lockHeld := false
        tasks := setTask s.tasks i (.done (.ok (dictGet [] t.eid))) } := by
  simp only [step, ht, hts]

theorem step_resume_snapshot (s : Sys) (i : Nat) (t : Task) (l : List HAState)
    (ht : taskAt s.tasks i = some t) (hts : t.status = .loading) :
    step s (.resume i (.snapshot l)) =
      { s with
        cache := some (restoreCacheOfStates l)
        lockHeld := false
        tasks := setTask s.tasks i
          (.done (.ok (dictGet (restoreCacheOfStates l) t.eid))) } := by
  simp only [step, ht, hts]

theorem step_resume_haError (s : Sys) (i : Nat) (t : Task)
    (ht : taskAt s.tasks i = some t) (hts : t.status = .loading) :
    step s (.resume i (.fail .haError)) =
      { s with
        lockHeld := false
        tasks := setTask s.tasks i (.done (.ok none)) } := by
  simp only [step, ht, hts]

theorem step_resume_otherError (s : Sys) (i : Nat) (t : Task)
    (ht : taskAt s.tasks i = some t) (hts : t.status = .loading) :
    step s (.resume i (.fail .otherError)) =
      { s with
        lockHeld := false
        tasks := setTask s.tasks i (.done (.raised .otherError)) } := by
  simp only [step, ht, hts]

theorem step_resume_notLoading (s : Sys) (i : Nat) (o : LoadOutcome) (t : Task)
    (ht : taskAt s.tasks i = some t) (hts : t.status ≠ .loading) :
    step s (.resume i o) = s := by
  simp only [step, ht]

theorem step_fireStart_pos (s : Sys) (hn : 0 < s.removeListeners) :
    step s .fireStart = { s with cache := none, removeListeners := 0 } := by
  simp only [step, if_pos hn]

theorem step_fireStart_zero (s : Sys) (hn : s.removeListeners = 0) :
    step s .fireStart = s := by
  simp only [step]
  rw [if_neg]
  omega

theorem step_setPhase (s : Sys) (p : CoreState) :
    step s (.setPhase p) = { s with phase := p } := rfl

/-- Every step preserves load mutual exclusion: with the lock free nobody
is inside `store.async_load()`, and at most one task ever is. -/
theorem mutexInv_step (s : Sys) (a : Act) (h : mutexInv s) : mutexInv (step s a) := by
  unfold mutexInv at h ⊢
  cases a with
  | start i =>
    cases ht : taskAt s.tasks i with
    | none => rw [step_start_none s i ht]; exact h
    | some t =>
      by_cases hts : t.status = .ready
      · cases hc : s.cache with
        | some d =>
          rw [step_start_hit s i t d ht hts hc]
          exact mutexInvT_set_nonloading i _ (fun hx => nomatch hx) h
        | none =>
          cases hp : phaseOpen s.phase with
          | false =>
            rw [step_start_closed s i t ht hts hc hp]
            exact mutexInvT_set_nonloading i _ (fun hx => nomatch hx) h
          | true =>
            cases hl : s.lockHeld with
            | true =>
              rw [step_start_wait s i t ht hts hc hp hl]
              exact mutexInvT_set_nonloading i _ (fun hx => nomatch hx) h
            | false =>
              rw [step_start_load s i t ht hts hc hp hl]
              exact mutexInvT_beginLoad i (hl ▸ h)
      · rw [step_start_notReady s i t ht hts]; exact h
  | acquire i =>
    cases ht : taskAt s.tasks i with
    | none => rw [step_acquire_none s i ht]; exact h
    | some t =>
      by_cases hts : t.status = .waitingLock
      · cases hl : s.lockHeld with
        | true => rw [step_acquire_locked s i t ht hts hl]; exact h
        | false =>
          cases hc : s.cache with
          | some d =>
            rw [step_acquire_hit s i t d ht hts hl hc]
            exact mutexInvT_set_nonloading i _ (fun hx => nomatch hx) h
          | none =>
            rw [step_acquire_load s i t ht hts hl hc]
            exact mutexInvT_beginLoad i (hl ▸ h)
      · rw [step_acquire_notWaiting s i t ht hts]; exact h
  | resume i o =>
    cases ht : taskAt s.tasks i with
    | none => rw [step_resume_none s i o ht]; exact h
    | some t =>
      by_cases hts : t.status = .loading
      · cases o with
        | noData =>
          rw [step_resume_noData s i t ht hts]
          exact mutexInvT_endLoad i t ht hts _ (fun hx => nomatch hx) h
        | snapshot l =>
          rw [step_resume_snapshot s i t l ht hts]
          exact mutexInvT_endLoad i t ht hts _ (fun hx => nomatch hx) h
        | fail k =>
          cases k with
          | haError =>
            rw [step_resume_haError s i t ht hts]
            exact mutexInvT_endLoad i t ht hts _ (fun hx => nomatch hx) h
          | otherError =>
            rw [step_resume_otherError s i t ht hts]
            exact mutexInvT_endLoad i t ht hts _ (fun hx => nomatch hx) h
      · rw [step_resume_notLoading s i o t ht hts]; exact h
  | fireStart =>
    by_cases hn : 0 < s.removeListeners
    · rw [step_fireStart_pos s hn]; exact h
    · rw [step_fireStart_zero s (by omega)]; exact h
  | setPhase p =>
    rw [step_setPhase s p]; exact h

/-- As long as no load raises and the start event does not fire, every
step preserves the at-most-one-load invariant. -/
theorem loadOnceInv_step (s : Sys) (a : Act) (hg : okAct a = true)
    (h : loadOnceInv s) : loadOnceInv (step s a) := by
  cases a with
  | start i =>
    cases ht : taskAt s.tasks i with
    | none => rw [step_start_none s i ht]; exact h
    | some t =>
      by_cases hts : t.status = .ready
      · cases hc : s.cache with
        | some d =>
          rw [step_start_hit s i t d ht hts hc]
          exact ⟨h.1, fun hx => absurd (hc ▸ hx) (fun hy => nomatch hy)⟩
        | none =>
          cases hp : phaseOpen s.phase with
          | false =>
            rw [step_start_closed s i t ht hts hc hp]
            exact ⟨h.1, fun _ hl => h.2 hc hl⟩
          | true =>
            cases hl : s.lockHeld with
            | true =>
              rw [step_start_wait s i t ht hts hc hp hl]
              exact ⟨h.1, fun _ hx => absurd (hl ▸ hx) (fun hy => nomatch hy)⟩
            | false =>
              rw [step_start_load s i t ht hts hc hp hl]
              have h0 := h.2 hc hl
              exact ⟨by simp only [beginLoad]; omega, fun _ hx => nomatch hx⟩
      · rw [step_start_notReady s i t ht hts]; exact h
  | acquire i =>
    cases ht : taskAt s.tasks i with
    | none => rw [step_acquire_none s i ht]; exact h
    | some t =>
      by_cases hts : t.status = .waitingLock
      · cases hl : s.lockHeld with
        | true => rw [step_acquire_locked s i t ht hts hl]; exact h
        | false =>
          cases hc : s.cache with
          | some d =>
            rw [step_acquire_hit s i t d ht hts hl hc]
            exact ⟨h.1, fun hx => absurd (hc ▸ hx) (fun hy => nomatch hy)⟩
          | none =>
            rw [step_acquire_load s i t ht hts hl hc]
            have h0 := h.2 hc hl
            exact ⟨by simp only [beginLoad]; omega, fun _ hx => nomatch hx⟩
      · rw [step_acquire_notWaiting s i t ht hts]; exact h
  | resume i o =>
    cases ht : taskAt s.tasks i with
    | none => rw [step_resume_none s i o ht]; exact h
    | some t =>
      by_cases hts : t.status = .loading
      · cases o with
        | noData =>
          rw [step_resume_noData s i t ht hts]
          exact ⟨h.1, fun hx => nomatch hx⟩
        | snapshot l =>
          rw [step_resume_snapshot s i t l ht hts]
          exact ⟨h.1, fun hx => nomatch hx⟩
        | fail k => simp [okAct] at hg
      · rw [step_resume_notLoading s i o t ht hts]; exact h
  | fireStart => simp [okAct] at hg
  | setPhase p => rw [step_setPhase s p]; exact h

/-- As long as the start event does not fire, every step preserves the
listener invariant: with no `remove_cache` listener registered, the cache
has never been populated and nothing is loading. -/
theorem listenInv_step (s : Sys) (a : Act) (hg : noFire a = true)
    (h : listenInv s) : listenInv (step s a) := by
  cases a with
  | start i =>
    cases ht : taskAt s.tasks i with
    | none => rw [step_start_none s i ht]; exact h
    | some t =>
      by_cases hts : t.status = .ready
      · cases hc : s.cache with
        | some d =>
          rw [step_start_hit s i t d ht hts hc]
          intro h0
          have hx := (h h0).1
          rw [hc] at hx
          exact Option.noConfusion hx
        | none =>
          cases hp : phaseOpen s.phase with
          | false =>
            rw [step_start_closed s i t ht hts hc hp]
            intro h0
            exact ⟨hc, no_loading_setTask _ i _ (fun hy => nomatch hy) (h h0).2⟩
          | true =>
            cases hl : s.lockHeld with
            | true =>
              rw [step_start_wait s i t ht hts hc hp hl]
              intro h0
              exact ⟨hc, no_loading_setTask _ i _ (fun hy => nomatch hy) (h h0).2⟩
            | false =>
              rw [step_start_load s i t ht hts hc hp hl]
              intro h0
              exact absurd h0 (Nat.succ_ne_zero _)
      · rw [step_start_notReady s i t ht hts]; exact h
  | acquire i =>
    cases ht : taskAt s.tasks i with
    | none => rw [step_acquire_none s i ht]; exact h
    | some t =>
      by_cases hts : t.status = .waitingLock
      · cases hl : s.lockHeld with
        | true => rw [step_acquire_locked s i t ht hts hl]; exact h
        | false =>
          cases hc : s.cache with
          | some d =>
            rw [step_acquire_hit s i t d ht hts hl hc]
            intro h0
            have hx := (h h0).1
            rw [hc] at hx
            exact Option.noConfusion hx
          | none =>
            rw [step_acquire_load s i t ht hts hl hc]
            intro h0
            exact absurd h0 (Nat.succ_ne_zero _)
      · rw [step_acquire_notWaiting s i t ht hts]; exact h
  | resume i o =>
    cases ht : taskAt s.tasks i with
    | none => rw [step_resume_none s i o ht]; exact h
    | some t =>
      by_cases hts : t.status = .loading
      · have hload : loadingAt s.tasks i := by simp [loadingAt, ht, hts]
        cases o with
        | noData =>
          rw [step_resume_noData s i t ht hts]
          intro h0
          exact absurd hload ((h h0).2 i)
        | snapshot l =>
          rw [step_resume_snapshot s i t l ht hts]
          intro h0
          exact absurd hload ((h h0).2 i)
        | fail k =>
          cases k with
          | haError =>
            rw [step_resume_haError s i t ht hts]
            intro h0
            exact absurd hload ((h h0).2 i)
          | otherError =>
            rw [step_resume_otherError s i t ht hts]
            intro h0
            exact absurd hload ((h h0).2 i)
      · rw [step_resume_notLoading s i o t ht hts]; exact h
  | fireStart => simp [noFire] at hg
  | setPhase p => rw [step_setPhase s p]; exact h

/-- In the initial task list every task is ready, so none is loading. -/
theorem not_loadingAt_map_ready (eids : List String) (i : Nat) :
    ¬ loadingAt (eids.map (fun e => { eid := e, status := .ready })) i := by
  induction eids generalizing i with
  | nil => simp [loadingAt, taskAt]
  | cons e es ih =>
    cases i with
    | zero => simp [loadingAt, taskAt]
    | succ n => simpa [loadingAt, taskAt] using ih n

/-- The initial state satisfies load mutual exclusion. -/
theorem mutexInv_mkInit (eids : List String) (p : CoreState) :
    mutexInv (mkInit eids p) := by
  refine ⟨fun _ i => not_loadingAt_map_ready eids i,
    fun i j hi _ => absurd hi (not_loadingAt_map_ready eids i)⟩

/-- The initial state satisfies the at-most-one-load invariant. -/
theorem loadOnceInv_mkInit (eids : List String) (p : CoreState) :
    loadOnceInv (mkInit eids p) :=
  ⟨Nat.zero_le 1, fun _ _ => rfl⟩

/-- The initial state satisfies the listener invariant. -/
theorem listenInv_mkInit (eids : List String) (p : CoreState) :
    listenInv (mkInit eids p) :=
  fun _ => ⟨rfl, fun i => not_loadingAt_map_ready eids i⟩

/-- Load mutual exclusion holds in every reachable state, whatever the
schedule, the load outcomes and the events. -/
theorem mutexInv_run (eids : List String) (p : CoreState) (tr : List Act) :
    mutexInv (run (mkInit eids p) tr) :=
  run_preserves mutexInv (fun _ => true) (fun s a _ h => mutexInv_step s a h) tr
    (mkInit eids p) (fun _ _ => rfl) (mutexInv_mkInit eids p)

/-- The at-most-one-load invariant holds in every state reachable without
a raising load and without the start event. -/
theorem loadOnceInv_run (eids : List String) (p : CoreState) (tr : List Act)
    (hok : ∀ a ∈ tr, okAct a = true) :
    loadOnceInv (run (mkInit eids p) tr) :=
  run_preserves loadOnceInv okAct loadOnceInv_step tr (mkInit eids p) hok
    (loadOnceInv_mkInit eids p)

/-- The listener invariant holds in every state reachable without the
start event firing. -/
theorem listenInv_run (eids : List String) (p : CoreState) (tr : List Act)
    (hnf : ∀ a ∈ tr, noFire a = true) :
    listenInv (run (mkInit eids p) tr) :=
  run_preserves listenInv noFire listenInv_step tr (mkInit eids p) hnf
    (listenInv_mkInit eids p)

/-- Firing the start event on a state satisfying the listener invariant
removes the cache mapping. -/
theorem fireStart_clears (s : Sys) (h : listenInv s) :
    (step s .fireStart).cache = none := by
  by_cases hn : 0 < s.removeListeners
  · rw [step_fireStart_pos s hn]
  · rw [step_fireStart_zero s (by omega)]
    exact (h (by omega)).1

/-! ## Claims -/

/-- Claim C1, counterexample: two concurrent `async_get_last_state` calls
are both issued (actions `start 0`, `start 1`) before any load completes,
yet two `store.async_load()` invocations occur: the first load raises
`HomeAssistantError`, which leaves `DATA_RESTORE_CACHE` unset, so the
waiter that acquires the lock next re-enters `_load_restore_cache` and
triggers a second load.  This refutes "exactly one `SnapshotStore.load()`
invocation occurs ... no caller triggers a second load". -/
theorem c1_counterexample :
    (run (mkInit ["a", "a"] CoreState.starting)
      [Act.start 0, Act.start 1, Act.resume 0 (.fail .haError), Act.acquire 1,
       Act.resume 1 (.fail .haError)]).loadCount = 2 := by decide

/-- Claim C1 (amended): if no load outcome raises and the start event has
not fired, any number of concurrent `async_get_last_state` calls under any
schedule cause at most one `store.async_load()` invocation; at most one
load is ever in flight at a time (under every schedule); and every call
resolved by the load's completion observes exactly the cache built from
that single load's outcome. -/
theorem c1_single_flight :
    (∀ (eids : List String) (p : CoreState) (tr : List Act),
      (∀ a ∈ tr, okAct a = true) → (run (mkInit eids p) tr).loadCount ≤ 1) ∧
    (∀ (eids : List String) (p : CoreState) (tr : List Act) (i j : Nat),
      loadingAt (run (mkInit eids p) tr).tasks i →
      loadingAt (run (mkInit eids p) tr).tasks j → i = j) ∧
    (∀ (s : Sys) (i : Nat) (t : Task) (l : List HAState),
      taskAt s.tasks i = some t → t.status = .loading →
      (step s (.resume i (.snapshot l))).cache = some (restoreCacheOfStates l) ∧
      statusOf (step s (.resume i (.snapshot l))) i =
        some (.done (.ok (dictGet (restoreCacheOfStates l) t.eid)))) := by
  refine ⟨fun eids p tr hok => (loadOnceInv_run eids p tr hok).1,
    fun eids p tr i j hi hj => (mutexInv_run eids p tr).2 i j hi hj,
    fun s i t l ht hts => ?_⟩
  rw [step_resume_snapshot s i t l ht hts]
  exact ⟨rfl, by simp [statusOf, taskAt_setTask, ht]⟩

/-- Witness for C1's amended theorem at concrete inputs. -/
theorem c1_single_flight_witness :
    (run (mkInit ["a"] CoreState.starting)
      [Act.start 0, Act.resume 0 LoadOutcome.noData]).loadCount ≤ 1 ∧
    (0 : Nat) = 0 ∧
    ((step (run (mkInit ["a"] CoreState.starting) [Act.start 0])
        (Act.resume 0 (LoadOutcome.snapshot [⟨"a", "on"⟩]))).cache =
      some (restoreCacheOfStates [⟨"a", "on"⟩]) ∧
     statusOf (step (run (mkInit ["a"] CoreState.starting) [Act.start 0])
        (Act.resume 0 (LoadOutcome.snapshot [⟨"a", "on"⟩]))) 0 =
      some (.done (.ok (dictGet (restoreCacheOfStates [⟨"a", "on"⟩]) "a")))) :=
  ⟨c1_single_flight.1 ["a"] CoreState.starting
      [Act.start 0, Act.resume 0 LoadOutcome.noData] (by decide),
   c1_single_flight.2.1 ["a", "a"] CoreState.starting [Act.start 0] 0 0
      (by unfold loadingAt; decide) (by unfold loadingAt; decide),
   c1_single_flight.2.2 (run (mkInit ["a"] CoreState.starting) [Act.start 0]) 0
      ⟨"a", .loading⟩ [⟨"a", "on"⟩] (by decide) rfl⟩

/-- Claim C2, counterexample: the first load attempt completes (raising
`HomeAssistantError`, caller resolved with `None`, one load executed);
a later `async_get_last_state` call issued after that completion invokes
`store.async_load()` again — the slot is not retired by a failed
attempt. -/
theorem c2_counterexample :
    (run (mkInit ["a", "b"] CoreState.starting)
      [Act.start 0, Act.resume 0 (.fail .haError)]).loadCount = 1 ∧
    statusOf (run (mkInit ["a", "b"] CoreState.starting)
      [Act.start 0, Act.resume 0 (.fail .haError)]) 0 =
      some (.done (.ok none)) ∧
    (run (mkInit ["a", "b"] CoreState.starting)
      [Act.start 0, Act.resume 0 (.fail .haError), Act.start 1]).loadCount = 2 := by
  decide

/-- Claim C2 (amended): the load slot is retired by populating the cache,
not by mere completion: while `DATA_RESTORE_CACHE` is populated no step
invokes `store.async_load()` again, but a failed (raising) load attempt
leaves the cache unpopulated, so a later call during the startup window
starts a new load. -/
theorem c2_retire_on_success :
    (∀ (s : Sys) (a : Act) (d : RestoreDict), s.cache = some d →
      (step s a).loadCount = s.loadCount) ∧
    (∀ (s : Sys) (i : Nat) (t : Task), taskAt s.tasks i = some t →
      t.status = .loading →
      (step s (.resume i (.fail .haError))).cache = s.cache) := by
  constructor
  · intro s a d hd
    cases a with
    | start i =>
      cases ht : taskAt s.tasks i with
      | none => rw [step_start_none s i ht]
      | some t =>
        by_cases hts : t.status = .ready
        · rw [step_start_hit s i t d ht hts hd]
        · rw [step_start_notReady s i t ht hts]
    | acquire i =>
      cases ht : taskAt s.tasks i with
      | none => rw [step_acquire_none s i ht]
      | some t =>
        by_cases hts : t.status = .waitingLock
        · cases hl : s.lockHeld with
          | true => rw [step_acquire_locked s i t ht hts hl]
          | false => rw [step_acquire_hit s i t d ht hts hl hd]
        · rw [step_acquire_notWaiting s i t ht hts]
    | resume i o =>
      cases ht : taskAt s.tasks i with
      | none => rw [step_resume_none s i o ht]
      | some t =>
        by_cases hts : t.status = .loading
        · cases o with
          | noData => rw [step_resume_noData s i t ht hts]
          | snapshot l => rw [step_resume_snapshot s i t l ht hts]
          | fail k =>
            cases k with
            | haError => rw [step_resume_haError s i t ht hts]
            | otherError => rw [step_resume_otherError s i t ht hts]
        · rw [step_resume_notLoading s i o t ht hts]
    | fireStart =>
      by_cases hn : 0 < s.removeListeners
      · rw [step_fireStart_pos s hn]
      · rw [step_fireStart_zero s (by omega)]
    | setPhase p => rw [step_setPhase s p]
  · intro s i t ht hts
    rw [step_resume_haError s i t ht hts]

/-- Witness for C2's amended theorem at concrete inputs. -/
theorem c2_retire_on_success_witness :
    (step (run (mkInit ["a"] CoreState.starting)
        [Act.start 0, Act.resume 0 LoadOutcome.noData]) (Act.start 0)).loadCount =
      (run (mkInit ["a"] CoreState.starting)
        [Act.start 0, Act.resume 0 LoadOutcome.noData]).loadCount ∧
    (step (run (mkInit ["a"] CoreState.starting) [Act.start 0])
        (Act.resume 0 (LoadOutcome.fail ExcKind.haError))).cache =
      (run (mkInit ["a"] CoreState.starting) [Act.start 0]).cache :=
  ⟨c2_retire_on_success.1 _ (Act.start 0) [] (by decide),
   c2_retire_on_success.2 _ 0 ⟨"a", .loading⟩ (by decide) rfl⟩

/-- Claim C3, counterexample: when `store.async_load()` raises
`HomeAssistantError`, the caller does get `None` and no exception, but
`lastStates` is NOT populated as empty: the exception propagates out of
`_load_restore_cache` before line 70 runs, so `DATA_RESTORE_CACHE`
remains absent (and the load will be retried, unlike the never-saved
case). -/
theorem c3_counterexample :
    (run (mkInit ["a"] CoreState.starting)
      [Act.start 0, Act.resume 0 (.fail .haError)]).cache = none ∧
    statusOf (run (mkInit ["a"] CoreState.starting)
      [Act.start 0, Act.resume 0 (.fail .haError)]) 0 =
      some (.done (.ok none)) := by decide

/-- Claim C3 (amended): a `HomeAssistantError` from the load is suppressed
— the affected call returns "no prior state" and never raises, exactly the
per-call result of the never-saved (`None`) outcome — but the cache is
left unpopulated rather than populated-as-empty. -/
theorem c3_fail_open :
    ∀ (s : Sys) (i : Nat) (t : Task), taskAt s.tasks i = some t →
      t.status = .loading →
      statusOf (step s (.resume i (.fail .haError))) i =
        some (.done (.ok none)) ∧
      (step s (.resume i (.fail .haError))).cache = s.cache ∧
      statusOf (step s (.resume i (.fail .haError))) i =
        statusOf (step s (.resume i .noData)) i := by
  intro s i t ht hts
  refine ⟨?_, ?_, ?_⟩
  · rw [step_resume_haError s i t ht hts]
    simp [statusOf, taskAt_setTask, ht]
  · rw [step_resume_haError s i t ht hts]
  · rw [step_resume_haError s i t ht hts, step_resume_noData s i t ht hts]
    simp [statusOf, taskAt_setTask, ht, dictGet]

/-- Witness for C3's amended theorem at a concrete input. -/
theorem c3_fail_open_witness :
    statusOf (step (run (mkInit ["a"] CoreState.starting) [Act.start 0])
      (Act.resume 0 (LoadOutcome.fail ExcKind.haError))) 0 =
      some (.done (.ok none)) :=
  (c3_fail_open _ 0 ⟨"a", .loading⟩ (by decide) rfl).1

/-- Claim C4, counterexample: the host fires the start event and moves to
`running` while a load is still in flight; the load then completes and
populates `DATA_RESTORE_CACHE`.  A new `async_get_last_state` call that
begins strictly after the phase transition returns the cached record —
not "no prior state" — because line 90 checks the cache before the
line 93 phase gate. -/
theorem c4_counterexample :
    (run (mkInit ["a", "a"] CoreState.starting)
      [Act.start 0, Act.fireStart, Act.setPhase CoreState.running,
       Act.resume 0 (.snapshot [⟨"a", "on"⟩])]).phase = CoreState.running ∧
    statusOf (run (mkInit ["a", "a"] CoreState.starting)
      [Act.start 0, Act.fireStart, Act.setPhase CoreState.running,
       Act.resume 0 (.snapshot [⟨"a", "on"⟩]), Act.start 1]) 1 =
      some (.done (.ok (some ⟨"a", "on"⟩))) := by decide

/-- Claim C4 (amended): the cache-presence check (line 90) runs before the
window-closed check (line 93).  With the window closed, a call beginning
then returns the cached record whenever the mapping is still populated,
and returns "no prior state" only when the mapping is absent. -/
theorem c4_cache_checked_first :
    ∀ (s : Sys) (i : Nat) (t : Task), taskAt s.tasks i = some t →
      t.status = .ready → phaseOpen s.phase = false →
      ((∀ d : RestoreDict, s.cache = some d →
          statusOf (step s (.start i)) i =
            some (.done (.ok (dictGet d t.eid)))) ∧
       (s.cache = none →
          statusOf (step s (.start i)) i = some (.done (.ok none)))) := by
  intro s i t ht hts hp
  constructor
  · intro d hd
    rw [step_start_hit s i t d ht hts hd]
    simp [statusOf, taskAt_setTask, ht]
  · intro hc
    rw [step_start_closed s i t ht hts hc hp]
    simp [statusOf, taskAt_setTask, ht]

/-- Witness for C4's amended theorem at a concrete input. -/
theorem c4_cache_checked_first_witness :
    statusOf (step (run (mkInit ["a", "a"] CoreState.starting)
        [Act.start 0, Act.resume 0 (.snapshot [⟨"a", "on"⟩]),
         Act.setPhase CoreState.running]) (Act.start 1)) 1 =
      some (.done (.ok (dictGet [("a", ⟨"a", "on"⟩)] "a"))) :=
  (c4_cache_checked_first _ 1 ⟨"a", .ready⟩ (by decide) rfl (by decide)).1
    [("a", ⟨"a", "on"⟩)] (by decide)

/-- Claim C5, counterexample: a timer tick that arrives while a save is
still suspended in `store.async_save` creates a second dump task, and
running it puts two saves in flight concurrently — there is no
dump-in-progress guard anywhere in the module. -/
theorem c5_counterexample :
    (runD dumpInit
      [DAct.fireStart, DAct.startDump, DAct.tick, DAct.startDump]).dumpsInFlight
      = 2 := by decide

/-- Claim C5 (amended): dump operations are not serialized.  A tick always
creates one more dump task, with no check of the saves already in flight,
and any created dump task that the loop runs starts another
`store.async_save` regardless of how many are already outstanding: a tick
arriving during a save is neither skipped nor queued behind it. -/
theorem c5_no_dump_guard :
    (∀ s : DumpSys, s.interval.isSome = true →
      (stepD s .tick).pendingDumps = s.pendingDumps + 1 ∧
      (stepD s .tick).dumpsInFlight = s.dumpsInFlight) ∧
    (∀ s : DumpSys, 0 < s.pendingDumps →
      (stepD s .startDump).dumpsInFlight = s.dumpsInFlight + 1 ∧
      (stepD s .startDump).saveCount = s.saveCount + 1) := by
  constructor
  · intro s hi
    simp [stepD, hi]
  · intro s hp
    simp [stepD, hp]

/-- Witness for C5's amended theorem at a concrete input. -/
theorem c5_no_dump_guard_witness :
    (stepD (runD dumpInit [DAct.fireStart, DAct.startDump]) DAct.tick).pendingDumps
      = (runD dumpInit [DAct.fireStart, DAct.startDump]).pendingDumps + 1 ∧
    (stepD (runD dumpInit [DAct.fireStart]) DAct.startDump).dumpsInFlight
      = (runD dumpInit [DAct.fireStart]).dumpsInFlight + 1 :=
  ⟨(c5_no_dump_guard.1 _ (by decide)).1, (c5_no_dump_guard.2 _ (by decide)).1⟩

/-- Claim C6: before the start event fires, the dump scheduler does
nothing at all (the post-`async_setup` state is inert under every other
action); when the host reaches "running" (the start event, modelled from
the spec as delivered at that transition), exactly one immediate dump task
is created, the periodic interval is registered, and exactly one shutdown
dump listener is registered, consuming the once-only setup listener. -/
theorem c6_setup_on_start :
    (∀ tr : List DAct, (∀ a ∈ tr, a ≠ DAct.fireStart) →
      runD dumpInit tr = dumpInit) ∧
    ((stepD dumpInit .fireStart).pendingDumps = 1 ∧
     (stepD dumpInit .fireStart).interval = some STATE_DUMP_INTERVAL ∧
     (stepD dumpInit .fireStart).stopListeners = 1 ∧
     (stepD dumpInit .fireStart).startListeners = 0 ∧
     (stepD dumpInit .fireStart).running = true) :=
  ⟨runD_dumpInit, by decide⟩

/-- Witness for C6's theorem at a concrete input. -/
theorem c6_setup_on_start_witness :
    runD dumpInit [DAct.tick, DAct.startDump, DAct.fireStop, DAct.finishDump]
      = dumpInit :=
  c6_setup_on_start.1 [DAct.tick, DAct.startDump, DAct.fireStop, DAct.finishDump]
    (by decide)

/-- Claim C7: within one loaded snapshot, a later record with the same key
overwrites an earlier one (Python dict comprehension semantics, lines
73-74), and the resolving `async_get_last_state` call for that key
returns the later record. -/
theorem c7_last_write_wins :
    ∀ (pre post : List HAState) (r : HAState),
      (∀ st ∈ post, st.entity_id ≠ r.entity_id) →
      dictGet (restoreCacheOfStates (pre ++ r :: post)) r.entity_id = some r ∧
      (∀ (s : Sys) (i : Nat) (t : Task), taskAt s.tasks i = some t →
        t.status = .loading → t.eid = r.entity_id →
        statusOf (step s (.resume i (.snapshot (pre ++ r :: post)))) i =
          some (.done (.ok (some r)))) := by
  intro pre post r hpost
  have hmain := restoreCacheOfStates_last_wins pre post r hpost
  refine ⟨hmain, ?_⟩
  intro s i t ht hts heid
  rw [step_resume_snapshot s i t _ ht hts]
  simp [statusOf, taskAt_setTask, ht, heid, hmain]

/-- Witness for C7's theorem at a concrete input: two records keyed "a",
the later one (payload "3") wins. -/
theorem c7_last_write_wins_witness :
    dictGet (restoreCacheOfStates
      [⟨"a", "1"⟩, ⟨"b", "2"⟩, ⟨"a", "3"⟩, ⟨"b", "4"⟩]) "a" = some ⟨"a", "3"⟩ ∧
    statusOf (step (run (mkInit ["a"] CoreState.starting) [Act.start 0])
      (Act.resume 0 (.snapshot [⟨"a", "1"⟩, ⟨"b", "2"⟩, ⟨"a", "3"⟩, ⟨"b", "4"⟩]))) 0 =
      some (.done (.ok (some ⟨"a", "3"⟩))) :=
  ⟨(c7_last_write_wins [⟨"a", "1"⟩, ⟨"b", "2"⟩] [⟨"b", "4"⟩] ⟨"a", "3"⟩ (by decide)).1,
   (c7_last_write_wins [⟨"a", "1"⟩, ⟨"b", "2"⟩] [⟨"b", "4"⟩] ⟨"a", "3"⟩ (by decide)).2
     _ 0 ⟨"a", .loading⟩ (by decide) rfl rfl⟩

/-- Claim C8, counterexample: the interval registered with the periodic
scheduler is the module constant `STATE_DUMP_INTERVAL = timedelta(hours=1)`
— 60 minutes, not 15. -/
theorem c8_counterexample :
    (stepD dumpInit DAct.fireStart).interval = some STATE_DUMP_INTERVAL ∧
    STATE_DUMP_INTERVAL = 60 ∧ STATE_DUMP_INTERVAL ≠ 15 := by decide

/-- Claim C8 (amended): the periodic dump interval is the hard-coded
module-level constant `STATE_DUMP_INTERVAL` of one hour; setup always
registers exactly this constant, with no configuration parameter. -/
theorem c8_interval_constant :
    STATE_DUMP_INTERVAL = 60 ∧
    ∀ s : DumpSys, 0 < s.startListeners →
      (stepD s .fireStart).interval = some STATE_DUMP_INTERVAL := by
  refine ⟨rfl, fun s hs => ?_⟩
  simp [stepD, hs]

/-- Witness for C8's amended theorem at a concrete input. -/
theorem c8_interval_constant_witness :
    (stepD dumpInit DAct.fireStart).interval = some STATE_DUMP_INTERVAL :=
  c8_interval_constant.2 dumpInit (by decide)

/-- Claim C9, counterexample: a load is in flight when the start event
fires; `remove_cache` pops an absent mapping, and the load then completes
and repopulates `DATA_RESTORE_CACHE`.  After the start event has fired the
populated mapping exists again, and a subsequent call is served from the
cache (line 90), not by the phase gate. -/
theorem c9_counterexample :
    (run (mkInit ["a", "a"] CoreState.starting)
      [Act.start 0, Act.fireStart, Act.resume 0 (.snapshot [⟨"a", "on"⟩])]).cache
      = some [("a", ⟨"a", "on"⟩)] ∧
    statusOf (run (mkInit ["a", "a"] CoreState.starting)
      [Act.start 0, Act.fireStart, Act.resume 0 (.snapshot [⟨"a", "on"⟩]),
       Act.start 1]) 1 = some (.done (.ok (some ⟨"a", "on"⟩))) := by decide

/-- Claim C9 (amended): each load attempt registers the once-only
`remove_cache` start-event listener before loading; firing the start event
from any state reached without a prior firing removes the cache mapping at
that instant (even if the cache was populated); and a call that finds the
mapping absent with the window closed takes the phase-gate branch and
returns "no prior state".  A load still in flight when the event fires
repopulates the mapping afterwards, so the removal is not permanent in
every execution. -/
theorem c9_remove_cache_listener :
    (∀ (s : Sys) (i : Nat) (t : Task), taskAt s.tasks i = some t →
      t.status = .ready → s.cache = none → phaseOpen s.phase = true →
      s.lockHeld = false →
      (step s (.start i)).removeListeners = s.removeListeners + 1 ∧
      statusOf (step s (.start i)) i = some .loading) ∧
    (∀ (eids : List String) (p : CoreState) (tr : List Act),
      (∀ a ∈ tr, noFire a = true) →
      (step (run (mkInit eids p) tr) .fireStart).cache = none) ∧
    (∀ (s : Sys) (i : Nat) (t : Task), taskAt s.tasks i = some t →
      t.status = .ready → s.cache = none → phaseOpen s.phase = false →
      statusOf (step s (.start i)) i = some (.done (.ok none))) := by
  refine ⟨?_, ?_, ?_⟩
  · intro s i t ht hts hc hp hl
    rw [step_start_load s i t ht hts hc hp hl]
    exact ⟨rfl, by simp [statusOf, beginLoad, taskAt_setTask, ht]⟩
  · intro eids p tr hnf
    exact fireStart_clears _ (listenInv_run eids p tr hnf)
  · intro s i t ht hts hc hp
    rw [step_start_closed s i t ht hts hc hp]
    simp [statusOf, taskAt_setTask, ht]

/-- Witness for C9's amended theorem at concrete inputs. -/
theorem c9_remove_cache_listener_witness :
    (step (mkInit ["a"] CoreState.starting) (Act.start 0)).removeListeners
      = (mkInit ["a"] CoreState.starting).removeListeners + 1 ∧
    (step (run (mkInit ["a"] CoreState.starting)
        [Act.start 0, Act.resume 0 (.snapshot [⟨"a", "on"⟩])]) Act.fireStart).cache
      = none ∧
    statusOf (step (mkInit ["a"] CoreState.running) (Act.start 0)) 0
      = some (.done (.ok none)) :=
  ⟨(c9_remove_cache_listener.1 (mkInit ["a"] CoreState.starting) 0 ⟨"a", .ready⟩
      (by decide) rfl rfl rfl rfl).1,
   c9_remove_cache_listener.2.1 ["a"] CoreState.starting
     [Act.start 0, Act.resume 0 (.snapshot [⟨"a", "on"⟩])] (by decide),
   c9_remove_cache_listener.2.2 _ 0 ⟨"a", .ready⟩ (by decide) rfl rfl rfl⟩

/-- Claim C10: only `HomeAssistantError` is suppressed by
`async_get_last_state` (line 105): a load that raises it resolves the call
to "no prior state", while a load that raises any other exception makes
the call itself raise that exception to its caller. -/
theorem c10_exception_selectivity :
    ∀ (s : Sys) (i : Nat) (t : Task), taskAt s.tasks i = some t →
      t.status = .loading →
      statusOf (step s (.resume i (.fail .otherError))) i =
        some (.done (.raised .otherError)) ∧
      statusOf (step s (.resume i (.fail .haError))) i =
        some (.done (.ok none)) := by
  intro s i t ht hts
  constructor
  · rw [step_resume_otherError s i t ht hts]
    simp [statusOf, taskAt_setTask, ht]
  · rw [step_resume_haError s i t ht hts]
    simp [statusOf, taskAt_setTask, ht]

/-- Witness for C10's theorem at a concrete input. -/
theorem c10_exception_selectivity_witness :
    statusOf (step (run (mkInit ["a"] CoreState.starting) [Act.start 0])
      (Act.resume 0 (LoadOutcome.fail ExcKind.otherError))) 0 =
      some (.done (.raised .otherError)) :=
  (c10_exception_selectivity _ 0 ⟨"a", .loading⟩ (by decide) rfl).1

end RestoreState
